import Mathlib

/-!
Verification development for `scrolling-mpris` (`src/mpris.cpp`).

This file gives a shallow embedding of the program's core:
* the player registry (`PlayerManager`: `add_player_by_name`,
  `on_name_vanished`, `selected_player`) together with `Player::select`,
  with handler callbacks (`on_select` / `on_empty`) and the diagnostic
  `display_print` calls reified as an event list;
* the marquee display engine (`OutputGenerator`: `update_to_display`,
  `display`, `scoll`, `on_update_seleceted`, `update_cover_art`) over
  codepoint lists (`List Char`), matching the `g_utf8_*` codepoint
  arithmetic of the source;
* the text escaping function `encode`;
* the metadata extraction (`parse_metadata` and its getters) over an
  abstract variant dictionary.

Machine integers: `selected_idx` is a C++ `size_t`; it is modelled as a
`Nat`, with `NON_IDX = 2^64 - 1` (the value of `static_cast<size_t>(-1)`).
No other arithmetic in the translated code can overflow on the inputs the
program feeds it.
-/

namespace Mpris

set_option maxRecDepth 100000

/-! ### Registry data model (src/mpris.cpp:158-536) -/

/-- `PlayerctlSource` of playerctl, as used by `PlayerUID`. -/
inductive PlayerctlSource where
  | NONE
  | DBUS_SESSION
  | DBUS_SYSTEM
deriving DecidableEq

/-- `PlayerUID` (src/mpris.cpp:172-207): name plus source classification;
equality compares both fields. -/
structure PlayerUID where
  name : String
  source : PlayerctlSource
deriving DecidableEq

/-- The registry-relevant projection of `Player` (src/mpris.cpp:267-399):
its identity and the `is_selected` flag.  The live playerctl object and
the mirrored property state do not participate in the registry
transitions; the `state_handler` callbacks are reified as `MEvent`s. -/
structure Player where
  uid : PlayerUID
  is_selected : Bool
deriving DecidableEq

/-- Handler activity of a registry transition: `Player::select` invoking
`state_handler->on_select` (src/mpris.cpp:393-396), the
`handler->on_empty()` call, and the diagnostic `display_print` strings. -/
inductive MEvent where
  | select (uid : PlayerUID)
  | empty
  | error (msg : String)
deriving DecidableEq

/-- `PlayerManager::NON_IDX = static_cast<size_t>(-1)` (src/mpris.cpp:470). -/
def NON_IDX : Nat := 18446744073709551615

/-- `PlayerManager`'s mutable registry state (src/mpris.cpp:469-471). -/
structure PMState where
  managed_players : List Player
  selected_idx : Nat
deriving DecidableEq

/-- The initial registry: empty, nothing selected. -/
def pm0 : PMState := ⟨[], NON_IDX⟩

/-- `managed_players[idx]->select()` (src/mpris.cpp:393-396, 526): sets
`is_selected = true` on the player at `idx` and fires `on_select` with it.
Returns `none` when `idx` is out of bounds (undefined behaviour of the
`operator[]` access in the C++). -/
def fire_select (players : List Player) (idx : Nat) : Option (List Player × List MEvent) :=
  match players[idx]? with
  | none => none
  | some p => some (players.set idx { p with is_selected := true }, [MEvent.select p.uid])

/-- `PlayerManager::add_player_by_name` (src/mpris.cpp:477-496): rejects a
duplicate uid (emitting the "Should not exist!" status line); otherwise
appends a new `Player` (constructed with `is_selected = false`), and if
`selected_idx == NON_IDX` selects it and points `selected_idx` at it. -/
def add_player_by_name (s : PMState) (uid : PlayerUID) : PMState × List MEvent :=
  if s.managed_players.any (fun p => p.uid = uid) then
    (s, [MEvent.error "Should not exist!"])
  else if s.selected_idx = NON_IDX then
    ({ managed_players := s.managed_players ++ [{ uid := uid, is_selected := true }],
       selected_idx := (s.managed_players ++ [({ uid := uid, is_selected := true } : Player)]).length - 1 },
     [MEvent.select uid])
  else
    ({ s with managed_players := s.managed_players ++ [{ uid := uid, is_selected := false }] }, [])

/-- `std::ranges::find_if` + `erase` over `managed_players`
(src/mpris.cpp:506-515): locate the first player with the given uid and
remove it, returning the removed entry and the remaining sequence. -/
def remove_first : List Player → PlayerUID → Option (Player × List Player)
  | [], _ => none
  | p :: ps, uid =>
    if p.uid = uid then some (p, ps)
    else (remove_first ps uid).map (fun r => (r.1, p :: r.2))

/-- `PlayerManager::on_name_vanished` (src/mpris.cpp:503-527).  Absent uid:
the "Should exist!" status line, no state change.  Present uid: the entry
is removed; if it was selected and the registry is now empty,
`selected_idx` becomes `NON_IDX` and `on_empty` fires (early return);
if it was selected and `selected_idx` is now past the end, `selected_idx`
wraps to 0.  In every non-empty outcome the final, unconditional
`managed_players[selected_idx]->select()` runs. -/
def on_name_vanished (s : PMState) (uid : PlayerUID) : Option (PMState × List MEvent) :=
  match remove_first s.managed_players uid with
  | none => some (s, [MEvent.error "Should exist!"])
  | some (entry, players) =>
    if entry.is_selected then
      if players = [] then
        some (⟨[], NON_IDX⟩, [MEvent.empty])
      else
        (fire_select players (if players.length ≤ s.selected_idx then 0 else s.selected_idx)).map
          (fun r => (⟨r.1, if players.length ≤ s.selected_idx then 0 else s.selected_idx⟩, r.2))
    else
      (fire_select players s.selected_idx).map
        (fun r => (⟨r.1, s.selected_idx⟩, r.2))

/-- `PlayerManager::selected_player` (src/mpris.cpp:461-467); the
unchecked `managed_players[selected_idx]` access is modelled with `[·]?`. -/
def selected_player (s : PMState) : Option Player :=
  if s.selected_idx = NON_IDX then none
  else s.managed_players[s.selected_idx]?

/-- Registry states reachable from the empty registry by the two provider
lifecycle transitions.  (A `Player` constructor failure in
`add_player_by_name` propagates before the `push_back`, leaving the state
unchanged, so failed adds need no transition of their own.) -/
inductive Reachable : PMState → Prop where
  | init : Reachable pm0
  | add (s : PMState) (uid : PlayerUID) : Reachable s → Reachable (add_player_by_name s uid).1
  | vanish (s s' : PMState) (uid : PlayerUID) (evs : List MEvent) :
      Reachable s → on_name_vanished s uid = some (s', evs) → Reachable s'

/-- The inductive invariant of the registry: an empty registry has
`selected_idx = NON_IDX`; a non-empty registry has `selected_idx = 0`,
its head selected, and every other player unselected. -/
def PMinv (s : PMState) : Prop :=
  (s.managed_players = [] → s.selected_idx = NON_IDX) ∧
  (∀ p rest, s.managed_players = p :: rest →
    s.selected_idx = 0 ∧ p.is_selected = true ∧ ∀ q ∈ rest, q.is_selected = false)

/-- Sample identities used in concrete registry scenarios. -/
def uidA : PlayerUID := ⟨"playerA", PlayerctlSource.DBUS_SESSION⟩

def uidB : PlayerUID := ⟨"playerB", PlayerctlSource.DBUS_SESSION⟩

def uidC : PlayerUID := ⟨"playerC", PlayerctlSource.DBUS_SESSION⟩

/-- The two-player registry `[A (selected), B]`, reachable by two adds. -/
def sAB : PMState := ⟨[⟨uidA, true⟩, ⟨uidB, false⟩], 0⟩

/-- The three-player registry `[A, B (selected), C]` of claim C3's
scenario (`selected_idx = 1` pointing at the selected `B`). -/
def sABC : PMState := ⟨[⟨uidA, false⟩, ⟨uidB, true⟩, ⟨uidC, false⟩], 1⟩

/-! ### Text escaping (src/mpris.cpp:550-614)

Strings are modelled as codepoint lists (`List Char`), matching the
`g_utf8_*` codepoint arithmetic used by the display engine.  The C++
`encode` and the streaming `EscapedString` writer both map each escaped
ASCII byte to its replacement and pass every other byte through; on
UTF-8 input the escaped characters are single-byte ASCII and never occur
inside a multi-byte sequence, so the byte-level loop acts exactly
codepoint by codepoint. -/

/-- The double-quote character `"`. -/
def quoteChar : Char := Char.ofNat 34

/-- The apostrophe character. -/
def aposChar : Char := Char.ofNat 39

/-- One arm of the `switch` in `encode` (src/mpris.cpp:601-611): the
replacement text appended for a single character. -/
def escape_char (c : Char) : List Char :=
  if c = '&' then "&amp;".toList
  else if c = quoteChar then "&quot;".toList
  else if c = aposChar then "&apos;".toList
  else if c = '<' then "&lt;".toList
  else if c = '>' then "&gt;".toList
  else if c = '\n' then "\\n".toList
  else if c = '\t' then "\\t".toList
  else if c = '\r' then "\\r".toList
  else [c]

/-- `encode` (src/mpris.cpp:597-614): the per-character switch loop,
appending each character's replacement to the buffer. -/
def encode : List Char → List Char
  | [] => []
  | c :: cs => escape_char c ++ encode cs

/-- The eight characters the switch escapes. -/
def sp_chars : List Char := ['&', quoteChar, aposChar, '<', '>', '\n', '\t', '\r']

/-! ### Display engine state (src/mpris.cpp:621-792) -/

/-- `OutputGenerator::LastSource` (src/mpris.cpp:631-635). -/
structure LastSource where
  title : List Char
  artist : List Char
  art_url : List Char
deriving DecidableEq

/-- The `OutputGenerator` display fields (src/mpris.cpp:624-636).  The
cover-art cache artifact lives in the filesystem and is threaded
separately through `on_update_seleceted`. -/
structure OGState where
  to_display : List Char
  to_display_utf8_len : Nat
  needs_scrolling : Bool
  display_offset : Nat
  is_playing : Bool
  last_src : LastSource
deriving DecidableEq

/-- The relevant part of `Player::State` as read by
`OutputGenerator::on_update_seleceted` (src/mpris.cpp:660-664): title,
artist, art url, and whether `playback_status == PLAYING`. -/
structure PState where
  title : List Char
  artist : List Char
  art_url : List Char
  playing : Bool
deriving DecidableEq

/-- `OutputGenerator::max_width = 50` (src/mpris.cpp:640). -/
def max_width : Nat := 50

/-- The 3-codepoint separator `" ~ "` (src/mpris.cpp:748). -/
def seperator : List Char := [' ', '~', ' ']

/-- `OutputGenerator::utf8_substr` (src/mpris.cpp:735-739): the substring
of `length` codepoints starting at codepoint `start`. -/
def utf8_substr (s : List Char) (start len : Nat) : List Char :=
  (s.drop start).take len

/-- The canonical display source string `title + " ~ " + artist`, the
3-codepoint separator present only when both are non-empty
(src/mpris.cpp:708-710). -/
def combined_src (title artist : List Char) : List Char :=
  title ++ (if title ≠ [] ∧ artist ≠ [] then seperator else []) ++ artist

/-- `OutputGenerator::update_to_display` (src/mpris.cpp:707-724). -/
def update_to_display (s : OGState) (title artist : List Char) : OGState :=
  if title.length + (if title ≠ [] ∧ artist ≠ [] then 3 else 0) + artist.length ≤ max_width then
    { s with
      to_display_utf8_len :=
        title.length + (if title ≠ [] ∧ artist ≠ [] then 3 else 0) + artist.length,
      needs_scrolling := false,
      to_display :=
        encode title ++ (if title ≠ [] ∧ artist ≠ [] then seperator else []) ++ encode artist }
  else
    { s with
      to_display_utf8_len :=
        title.length + (if title ≠ [] ∧ artist ≠ [] then 3 else 0) + artist.length,
      needs_scrolling := true,
      to_display :=
        title ++ (if title ≠ [] ∧ artist ≠ [] then seperator else []) ++ artist }

/-- The emitted status line (src/mpris.cpp:743, 778-779): the payload
wrapped in the JSON shell, with `<i>`/`</i>` markers when not playing. -/
def display_line (playing : Bool) (content : List Char) : List Char :=
  "\x7b\"text\":\"".toList ++ (if playing then [] else "<i>".toList)
  ++ content
  ++ (if playing then [] else "</i>".toList) ++ "\"\x7d\n".toList

/-- `OutputGenerator::display` (src/mpris.cpp:742-780): renders the
current window and emits one status line, resetting `display_offset` to 0
when the separator has been fully scrolled past.  Returns the state after
the call together with the emitted line. -/
def display (s : OGState) : OGState × List Char :=
  if s.needs_scrolling = false then
    (s, display_line s.is_playing s.to_display)
  else if s.display_offset < s.to_display_utf8_len then
    if max_width ≤ s.to_display_utf8_len - s.display_offset then
      (s, display_line s.is_playing
        (encode (utf8_substr s.to_display s.display_offset max_width)))
    else if max_width - (s.to_display_utf8_len - s.display_offset) ≤ 3 then
      (s, display_line s.is_playing
        (encode (utf8_substr s.to_display s.display_offset
            (s.to_display_utf8_len - s.display_offset))
          ++ encode (seperator.take (max_width - (s.to_display_utf8_len - s.display_offset)))))
    else
      (s, display_line s.is_playing
        (encode (utf8_substr s.to_display s.display_offset
            (s.to_display_utf8_len - s.display_offset))
          ++ seperator
          ++ encode (s.to_display.take
              (max_width - (s.to_display_utf8_len - s.display_offset) - 3))))
  else if 2 < s.display_offset - s.to_display_utf8_len then
    ({ s with display_offset := 0 },
      display_line s.is_playing (encode (s.to_display.take max_width)))
  else
    (s, display_line s.is_playing
      (seperator.drop (s.display_offset - s.to_display_utf8_len)
        ++ encode (s.to_display.take
            (max_width - (3 - (s.display_offset - s.to_display_utf8_len))))))

/-- `OutputGenerator::scoll` (src/mpris.cpp:782-786): a tick.  Emits
nothing unless scrolling; otherwise advances the offset by one codepoint
and renders. -/
def scoll (s : OGState) : OGState × Option (List Char) :=
  if s.needs_scrolling = false then (s, none)
  else
    ((display { s with display_offset := s.display_offset + 1 }).1,
     some (display { s with display_offset := s.display_offset + 1 }).2)

/-- `n` consecutive ticks. -/
def scoll_iter : Nat → OGState → OGState
  | 0, s => s
  | n + 1, s => (scoll (scoll_iter n s)).1

/-- Which filesystem operations of one `update_cover_art` call throw
(`fs::remove_all` and `fs::create_symlink`, src/mpris.cpp:688, 692). -/
structure FSFail where
  remove_fails : Bool
  symlink_fails : Bool
deriving DecidableEq

/-- `OutputGenerator::update_cover_art` (src/mpris.cpp:684-705), as a
function of the cache artifact at `cache_path` (modelled as the optional
symlink target).  The `last_src.art_url = art_url` assignment at its top
is performed by the caller wrapper `on_update_seleceted` in this
embedding.  `fs::symlink_status` on a missing path reports `not_found`
without throwing, so absence skips the removal; a throwing operation is
caught by the surrounding try/catch (the second component reports whether
an exception was caught and logged), aborting the remaining filesystem
steps but never propagating.  The `pkill` refresh signal has no effect on
any modelled state. -/
def update_cover_art (cache : Option (List Char)) (art_url : List Char) (f : FSFail) :
    Option (List Char) × Bool :=
  if cache.isSome && f.remove_fails then (cache, true)
  else if ("file://".toList).isPrefixOf art_url then
    if f.symlink_fails then (none, true) else (some (art_url.drop 7), false)
  else (none, false)

/-- `OutputGenerator::on_update_seleceted` (src/mpris.cpp:659-682).
Returns the engine state, the cache artifact, and the emitted status
lines. -/
def on_update_seleceted (s : OGState) (cache : Option (List Char)) (p : PState) (f : FSFail) :
    OGState × Option (List Char) × List (List Char) :=
  let s1 : OGState :=
    if p.art_url ≠ s.last_src.art_url
    then { s with last_src := { s.last_src with art_url := p.art_url } }
    else s
  let cache1 : Option (List Char) :=
    if p.art_url ≠ s.last_src.art_url
    then (update_cover_art cache p.art_url f).1
    else cache
  if s1.last_src.title = p.title ∧ s1.last_src.artist = p.artist then
    if s1.is_playing ≠ p.playing then
      ((display { s1 with is_playing := p.playing }).1, cache1,
       [(display { s1 with is_playing := p.playing }).2])
    else (s1, cache1, [])
  else
    let s2 : OGState := update_to_display
      { s1 with
        display_offset := 0,
        last_src := { s1.last_src with title := p.title, artist := p.artist } }
      p.title p.artist
    ((display { s2 with is_playing := p.playing }).1, cache1,
     [(display { s2 with is_playing := p.playing }).2])

/-- A scrolling engine state at offset 0 over a 51-codepoint raw string. -/
def sW : OGState := ⟨List.replicate 51 'a', 51, true, 0, true, ⟨[], [], []⟩⟩

/-- An engine state that has rendered the empty source. -/
def og0 : OGState := ⟨[], 0, false, 0, false, ⟨[], [], []⟩⟩

/-- Successful filesystem operations. -/
def fsOk : FSFail := ⟨false, false⟩

/-- A local-file art url. -/
def urlW : List Char := "file:///tmp/cover.png".toList

/-! ### Metadata extraction (src/mpris.cpp:36-139) -/

/-- An MPRIS metadata dictionary (`GVariant` of type `a{sv}`), abstracted
by the typed lookups `g_variant_lookup_value` performs on it: a key is
found at a given type or not. -/
structure MetaDict where
  u64_vals : String → Option Nat
  objpath_vals : String → Option String
  str_vals : String → Option String
  strarray_vals : String → Option (List String)

/-- `Metadata` (src/mpris.cpp:107-127). -/
structure Metadata where
  length : Nat
  trackid : String
  title : String
  album : String
  artist : String
  art_url : String
  url : String
deriving DecidableEq

/-- `metadata_get_u64_value` (src/mpris.cpp:52-56): absent key yields the
value-initialised `u_int64_t`, i.e. 0. -/
def metadata_get_u64_value (d : MetaDict) (key : String) : Nat :=
  match d.u64_vals key with
  | none => 0
  | some v => v

/-- `metadata_get_str_value` (src/mpris.cpp:59-65): absent key yields the
empty string. -/
def metadata_get_str_value (d : MetaDict) (key : String) : String :=
  match d.str_vals key with
  | none => ""
  | some v => v

/-- `metadata_get_track_id` (src/mpris.cpp:36-50): object-path-typed
lookup, falling back to a string-typed lookup, falling back to "". -/
def metadata_get_track_id (d : MetaDict) : String :=
  match d.objpath_vals "mpris:trackid" with
  | some v => v
  | none =>
    match d.str_vals "mpris:trackid" with
    | some v => v
    | none => ""

/-- The `", "` join performed by `metadata_get_str_array_value`'s loop. -/
def join_with_commas : List String → String
  | [] => ""
  | [x] => x
  | x :: y :: xs => x ++ ", " ++ join_with_commas (y :: xs)

/-- `metadata_get_str_array_value` (src/mpris.cpp:67-82).  When the key
is absent the lookup yields NULL and `g_variant_get_strv(NULL, &count)`
hits GLib's `g_return_val_if_fail` precondition guard, which returns NULL
leaving `prop_count` at its initialised 0; the join loop then runs zero
times and the empty string is returned (a GLib critical is logged, no
crash and no error branch). -/
def metadata_get_str_array_value (d : MetaDict) (key : String) : String :=
  match d.strarray_vals key with
  | none => ""
  | some arr => join_with_commas arr

/-- `parse_metadata` (src/mpris.cpp:129-139). -/
def parse_metadata (d : MetaDict) : Metadata :=
  { length := metadata_get_u64_value d "mpris:length",
    trackid := metadata_get_track_id d,
    title := metadata_get_str_value d "xesam:title",
    album := metadata_get_str_value d "xesam:album",
    artist := metadata_get_str_array_value d "xesam:artist",
    art_url := metadata_get_str_value d "mpris:artUrl",
    url := metadata_get_str_value d "xesam:url" }

/-- The all-absent metadata dictionary. -/
def emptyDict : MetaDict := ⟨fun _ => none, fun _ => none, fun _ => none, fun _ => none⟩

/-! ### Registry lemmas -/

theorem pm0_inv : PMinv pm0 := by
  constructor
  · intro _; rfl
  · intro p rest h; simp [pm0] at h

theorem NON_IDX_ne_zero : NON_IDX ≠ 0 := by decide

/-- Smart constructor for `PMinv`. -/
theorem PMinv_mk (players : List Player) (idx : Nat)
    (h : (players = [] ∧ idx = NON_IDX) ∨
         (∃ p rest, players = p :: rest ∧ idx = 0 ∧ p.is_selected = true ∧
            ∀ q ∈ rest, q.is_selected = false)) :
    PMinv ⟨players, idx⟩ := by
  constructor
  · intro hnil
    rcases h with ⟨_, hi⟩ | ⟨p, rest, hp, _⟩
    · exact hi
    · rw [hp] at hnil; simp at hnil
  · intro p rest hpr
    rcases h with ⟨hnil, _⟩ | ⟨p', rest', hp', hi, hsel, hrest⟩
    · simp only [hnil] at hpr
      simp at hpr
    · simp only at hpr
      rw [hp'] at hpr
      injection hpr with h1 h2
      subst h1; subst h2
      exact ⟨hi, hsel, hrest⟩

theorem add_preserves_inv (s : PMState) (uid : PlayerUID) (hinv : PMinv s) :
    PMinv (add_player_by_name s uid).1 := by
  by_cases hex : s.managed_players.any (fun p => p.uid = uid)
  · simpa [add_player_by_name, hex] using hinv
  · by_cases hsel : s.selected_idx = NON_IDX
    · have hnil : s.managed_players = [] := by
        cases hmp : s.managed_players with
        | nil => rfl
        | cons p rest =>
          exact absurd ((hinv.2 p rest hmp).1 ▸ hsel) (Ne.symm NON_IDX_ne_zero)
      have hadd : (add_player_by_name s uid).1 =
          ⟨[{ uid := uid, is_selected := true }], 0⟩ := by
        unfold add_player_by_name
        rw [if_neg hex, if_pos hsel, hnil]
        simp
      rw [hadd]
      exact PMinv_mk _ _ (Or.inr ⟨_, [], rfl, rfl, rfl, by simp⟩)
    · cases hmp : s.managed_players with
      | nil => exact absurd (hinv.1 hmp) hsel
      | cons p rest =>
        obtain ⟨hidx, hpsel, hrest⟩ := hinv.2 p rest hmp
        have hadd : (add_player_by_name s uid).1 =
            ⟨p :: (rest ++ [{ uid := uid, is_selected := false }]), s.selected_idx⟩ := by
          unfold add_player_by_name
          rw [if_neg hex, if_neg hsel, hmp]
          rfl
        rw [hadd]
        refine PMinv_mk _ _ (Or.inr ⟨p, _, rfl, hidx, hpsel, ?_⟩)
        intro q hq
        rcases List.mem_append.mp hq with hql | hqr
        · exact hrest q hql
        · simp at hqr; rw [hqr]

theorem remove_first_mem (l : List Player) (uid : PlayerUID) (e : Player) (l' : List Player)
    (h : remove_first l uid = some (e, l')) : e ∈ l ∧ ∀ q ∈ l', q ∈ l := by
  induction l generalizing l' with
  | nil => simp [remove_first] at h
  | cons p ps ih =>
    by_cases hp : p.uid = uid
    · simp [remove_first, hp] at h
      obtain ⟨he, hl⟩ := h
      subst he; subst hl
      exact ⟨List.mem_cons_self _ _, fun q hq => List.mem_cons_of_mem _ hq⟩
    · simp only [remove_first, if_neg hp, Option.map_eq_some'] at h
      obtain ⟨⟨e', qs⟩, hr, heq⟩ := h
      simp at heq
      obtain ⟨he, hl⟩ := heq
      subst he
      obtain ⟨hmem, hsub⟩ := ih qs hr
      constructor
      · exact List.mem_cons_of_mem _ hmem
      · intro q hq
        rw [← hl] at hq
        rcases List.mem_cons.mp hq with h1 | h2
        · rw [h1]; exact List.mem_cons_self _ _
        · exact List.mem_cons_of_mem _ (hsub q h2)

/-- Every `on_name_vanished` transition from an invariant state is defined
(the final indexed access is in bounds) and preserves the invariant. -/
theorem vanish_total_inv (s : PMState) (hinv : PMinv s) (uid : PlayerUID) :
    ∃ s' evs, on_name_vanished s uid = some (s', evs) ∧ PMinv s' := by
  cases hmp : s.managed_players with
  | nil =>
    refine ⟨s, [MEvent.error "Should exist!"], ?_, hinv⟩
    unfold on_name_vanished
    rw [hmp]
    rfl
  | cons p rest =>
    obtain ⟨hidx, hpsel, hrest⟩ := hinv.2 p rest hmp
    by_cases hp : p.uid = uid
    · -- the head (the selected player) is removed
      cases hrt : rest with
      | nil =>
        refine ⟨⟨[], NON_IDX⟩, [MEvent.empty], ?_, pm0_inv⟩
        unfold on_name_vanished
        rw [hmp]
        simp [remove_first, hp, hpsel, hrt]
      | cons r rs =>
        refine ⟨⟨{ r with is_selected := true } :: rs, 0⟩, [MEvent.select r.uid], ?_, ?_⟩
        · unfold on_name_vanished
          rw [hmp, hidx]
          simp [remove_first, hp, hpsel, hrt, fire_select]
        · refine PMinv_mk _ _ (Or.inr ⟨_, rs, rfl, rfl, rfl, ?_⟩)
          intro q hq
          exact hrest q (hrt ▸ List.mem_cons_of_mem _ hq)
    · -- a non-head (hence non-selected) player is removed, if present
      cases hr : remove_first rest uid with
      | none =>
        refine ⟨s, [MEvent.error "Should exist!"], ?_, hinv⟩
        unfold on_name_vanished
        rw [hmp]
        simp [remove_first, hp, hr]
      | some pr =>
        obtain ⟨e, qs⟩ := pr
        have hes : e.is_selected = false := hrest e (remove_first_mem rest uid e qs hr).1
        refine ⟨⟨{ p with is_selected := true } :: qs, s.selected_idx⟩,
                [MEvent.select p.uid], ?_, ?_⟩
        · unfold on_name_vanished
          rw [hmp]
          simp [remove_first, hp, hr, hes, fire_select, hidx]
        · rw [hidx]
          refine PMinv_mk _ _ (Or.inr ⟨_, qs, rfl, rfl, rfl, ?_⟩)
          intro q hq
          exact hrest q ((remove_first_mem rest uid e qs hr).2 q hq)

theorem reachable_inv (s : PMState) (h : Reachable s) : PMinv s := by
  induction h with
  | init => exact pm0_inv
  | add s uid _ ih => exact add_preserves_inv s uid ih
  | vanish s s' uid evs _ heq ih =>
    obtain ⟨s'', evs', heq', hinv'⟩ := vanish_total_inv s ih uid
    rw [heq] at heq'
    simp only [Option.some.injEq, Prod.mk.injEq] at heq'
    rw [heq'.1]
    exact hinv'

theorem set_self (l : List Player) (i : Nat) (q : Player) (h : l[i]? = some q) :
    l.set i q = l := by
  induction l generalizing i with
  | nil => simp at h
  | cons p ps ih =>
    cases i with
    | zero => simp at h; simp [h]
    | succ n => simp at h; simp [ih n h]

theorem player_eta_select (q : Player) (h : q.is_selected = true) :
    ({ q with is_selected := true } : Player) = q := by
  cases q; simp_all

/-! ### Registry claims -/

/-- Claim C1: Selection invariant: for every reachable registry state, if
the sequence of managed players is non-empty then exactly one `Player` has
`is_selected = true`, and if it is empty then no `Player` does; this holds
after every `add_player_by_name` and every `on_name_vanished` transition
(reachability is exactly closure under those two transitions). -/
theorem selection_invariant (s : PMState) (h : Reachable s) :
    (s.managed_players = [] → s.managed_players.countP (fun p => p.is_selected) = 0) ∧
    (s.managed_players ≠ [] → s.managed_players.countP (fun p => p.is_selected) = 1) := by
  have hinv := reachable_inv s h
  constructor
  · intro hnil; rw [hnil]; rfl
  · intro hne
    cases hmp : s.managed_players with
    | nil => exact absurd hmp hne
    | cons p rest =>
      obtain ⟨_, hpsel, hrest⟩ := hinv.2 p rest hmp
      rw [List.countP_cons]
      have hz : rest.countP (fun q => q.is_selected) = 0 :=
        List.countP_eq_zero.mpr (fun q hq => by simp [hrest q hq])
      simp [hz, hpsel]

/-- Witness for C1 at the reachable one-player registry. -/
theorem selection_invariant_witness :
    (add_player_by_name pm0 uidA).1.managed_players.countP (fun p => p.is_selected) = 1 :=
  (selection_invariant _ (Reachable.add pm0 uidA Reachable.init)).2 (by decide)

/-- Claim C9: for every reachable registry state, `selected_idx` is either
`NON_IDX` (exactly when the registry is empty) or a valid index strictly
below `managed_players.length`, so `selected_player` and the
`managed_players[selected_idx]` access at the end of `on_name_vanished`
are always in bounds (the modelled transition never returns `none`). -/
theorem selected_idx_valid (s : PMState) (h : Reachable s) :
    (s.selected_idx = NON_IDX ↔ s.managed_players = []) ∧
    (s.managed_players ≠ [] → s.selected_idx < s.managed_players.length) ∧
    (s.managed_players ≠ [] → (selected_player s).isSome = true) ∧
    (∀ uid, (on_name_vanished s uid).isSome = true) := by
  have hinv := reachable_inv s h
  refine ⟨⟨?_, hinv.1⟩, ?_, ?_, ?_⟩
  · intro hni
    cases hmp : s.managed_players with
    | nil => rfl
    | cons p rest =>
      have hidx := (hinv.2 p rest hmp).1
      rw [hidx] at hni
      exact absurd hni.symm NON_IDX_ne_zero
  · intro hne
    cases hmp : s.managed_players with
    | nil => exact absurd hmp hne
    | cons p rest =>
      obtain ⟨hidx, _, _⟩ := hinv.2 p rest hmp
      rw [hidx]; simp
  · intro hne
    cases hmp : s.managed_players with
    | nil => exact absurd hmp hne
    | cons p rest =>
      obtain ⟨hidx, _, _⟩ := hinv.2 p rest hmp
      simp only [selected_player, hmp, hidx]
      rw [if_neg (Ne.symm NON_IDX_ne_zero)]
      simp
  · intro uid
    obtain ⟨s', evs, heq, _⟩ := vanish_total_inv s hinv uid
    rw [heq]; rfl

/-- Witness for C9 at the reachable one-player registry. -/
theorem selected_idx_valid_witness :
    (add_player_by_name pm0 uidA).1.selected_idx <
      (add_player_by_name pm0 uidA).1.managed_players.length :=
  (selected_idx_valid _ (Reachable.add pm0 uidA Reachable.init)).2.1 (by decide)

/-- Claim C2 counterexample: removing the present but non-selected `B`
from the reachable registry `[A (selected), B]` DOES invoke the handler's
`on_select` (with the still-selected `A`), because the final
`managed_players[selected_idx]->select()` in `on_name_vanished` runs
unconditionally; the claim's "the handler's on_select is not invoked" is
false. -/
theorem nonselected_removal_cex :
    Reachable sAB ∧
    on_name_vanished sAB uidB = some (⟨[⟨uidA, true⟩], 0⟩, [MEvent.select uidA]) ∧
    [MEvent.select uidA] ≠ ([] : List MEvent) := by
  refine ⟨?_, by decide, by decide⟩
  have h := Reachable.add (add_player_by_name pm0 uidA).1 uidB
    (Reachable.add pm0 uidA Reachable.init)
  have heq : (add_player_by_name (add_player_by_name pm0 uidA).1 uidB).1 = sAB := by decide
  rw [← heq]
  exact h

/-- Claim C2 (amended): for every registry state and every removal
(`on_name_vanished`) of a session that is present but not currently
selected, no `Player`'s `is_selected` flag changes value and the
positional selection pointer `selected_idx` is not recomputed; the
registry's only change is the removal of that one entry — but the
handler's `on_select` IS invoked once, with the (unchanged) player at
`selected_idx`, by the unconditional select call ending
`on_name_vanished`. -/
theorem nonselected_removal_amended (s : PMState) (uid : PlayerUID)
    (entry q : Player) (rest : List Player)
    (hrem : remove_first s.managed_players uid = some (entry, rest))
    (hentry : entry.is_selected = false)
    (hq : rest[s.selected_idx]? = some q)
    (hqsel : q.is_selected = true) :
    on_name_vanished s uid = some (⟨rest, s.selected_idx⟩, [MEvent.select q.uid]) := by
  unfold on_name_vanished
  rw [hrem]
  simp only [hentry, Bool.false_eq_true, if_false, fire_select, hq]
  simp [player_eta_select q hqsel, set_self rest s.selected_idx q hq]

/-- Witness for C2's amended theorem on the registry `[A (selected), B]`. -/
theorem nonselected_removal_witness :
    on_name_vanished sAB uidB = some (⟨[⟨uidA, true⟩], 0⟩, [MEvent.select uidA]) :=
  nonselected_removal_amended sAB uidB ⟨uidB, false⟩ ⟨uidA, true⟩ [⟨uidA, true⟩]
    (by decide) rfl (by decide) rfl

/-- Claim C3: Reselection on vanish.  General part: for every registry
whose selected session is last in order, removing it wraps the selection
to the first remaining session and fires its select notification.
Concrete part: from `[A, B (selected), C]`, removing `B` yields `[A, C]`
with `C` (the entry that shifted into `B`'s former position) selected, and
fires `C`'s select notification. -/
theorem reselect_on_vanish (s : PMState) (p q : Player) (qs : List Player)
    (hplayers : s.managed_players = (q :: qs) ++ [p])
    (hrem : remove_first s.managed_players p.uid = some (p, q :: qs))
    (hsel : p.is_selected = true)
    (hidx : s.selected_idx = (q :: qs).length) :
    (on_name_vanished s p.uid =
      some (⟨{ q with is_selected := true } :: qs, 0⟩, [MEvent.select q.uid])) ∧
    (on_name_vanished sABC uidB =
      some (⟨[⟨uidA, false⟩, ⟨uidC, true⟩], 1⟩, [MEvent.select uidC])) := by
  constructor
  · unfold on_name_vanished
    rw [hrem]
    simp only [hsel, if_true]
    rw [if_neg (by simp), hidx, if_pos (le_refl _)]
    simp [fire_select]
  · decide

/-- Witness for C3 on the registry `[A, B (selected)]` with the selected
session last: removing `B` wraps selection to `A`. -/
theorem reselect_on_vanish_witness :
    on_name_vanished ⟨[⟨uidA, false⟩, ⟨uidB, true⟩], 1⟩ uidB =
      some (⟨[⟨uidA, true⟩], 0⟩, [MEvent.select uidA]) :=
  (reselect_on_vanish ⟨[⟨uidA, false⟩, ⟨uidB, true⟩], 1⟩ ⟨uidB, true⟩ ⟨uidA, false⟩ []
    rfl (by decide) rfl rfl).1

/-! ### Escaping lemmas and claim C7 -/

theorem encode_append (a b : List Char) : encode (a ++ b) = encode a ++ encode b := by
  induction a with
  | nil => rfl
  | cons c cs ih => simp [encode, ih]

theorem encode_safe (s : List Char) (h : ∀ x ∈ s, x ∉ sp_chars) : encode s = s := by
  induction s with
  | nil => rfl
  | cons c cs ih =>
    have hc := h c (List.mem_cons_self _ _)
    simp only [sp_chars, List.mem_cons, List.mem_singleton, not_or] at hc
    obtain ⟨h1, h2, h3, h4, h5, h6, h7, h8⟩ := hc
    rw [encode, escape_char,
      if_neg h1, if_neg h2, if_neg h3, if_neg h4, if_neg h5, if_neg h6, if_neg h7,
      if_neg (by simpa using h8)]
    rw [ih (fun x hx => h x (List.mem_cons_of_mem _ hx))]
    rfl

theorem encode_seperator : encode seperator = seperator := by decide

/-- Claim C7: the encoder replaces each of the eight escaped characters by
its replacement text, character by character, passes every other
character through unchanged, maps `<a>&'"` to
`&lt;a&gt;&amp;&apos;&quot;`, and is the identity on strings containing
none of the escaped characters. -/
theorem encode_escapes (s : List Char) (c : Char) :
    encode (c :: s) = escape_char c ++ encode s ∧
    (c ∉ sp_chars → escape_char c = [c]) ∧
    ((∀ x ∈ s, x ∉ sp_chars) → encode s = s) ∧
    (escape_char '&' = "&amp;".toList ∧ escape_char quoteChar = "&quot;".toList ∧
     escape_char aposChar = "&apos;".toList ∧ escape_char '<' = "&lt;".toList ∧
     escape_char '>' = "&gt;".toList ∧ escape_char '\n' = "\\n".toList ∧
     escape_char '\t' = "\\t".toList ∧ escape_char '\r' = "\\r".toList) ∧
    encode ['<', 'a', '>', '&', aposChar, quoteChar] = "&lt;a&gt;&amp;&apos;&quot;".toList := by
  refine ⟨rfl, ?_, encode_safe s, by decide, by decide⟩
  intro hc
  simp only [sp_chars, List.mem_cons, List.mem_singleton, not_or] at hc
  obtain ⟨h1, h2, h3, h4, h5, h6, h7, h8⟩ := hc
  rw [escape_char, if_neg h1, if_neg h2, if_neg h3, if_neg h4, if_neg h5, if_neg h6,
    if_neg h7, if_neg (by simpa using h8)]

/-- Witness for C7: identity on a safe string and the concrete escape. -/
theorem encode_escapes_witness :
    encode ['x', 'y'] = ['x', 'y'] ∧
    encode ['<', 'a', '>', '&', aposChar, quoteChar] = "&lt;a&gt;&amp;&apos;&quot;".toList :=
  ⟨(encode_escapes ['x', 'y'] 'z').2.2.1 (by decide),
   (encode_escapes [] 'z').2.2.2.2⟩

/-! ### Static-vs-scrolling boundary (claim C5) -/

theorem combined_src_length (title artist : List Char) :
    (combined_src title artist).length =
      title.length + (if title ≠ [] ∧ artist ≠ [] then 3 else 0) + artist.length := by
  unfold combined_src
  split <;> simp [seperator] <;> omega

/-- Claim C5: `update_to_display` sets `needs_scrolling = false` and
stores the pre-escaped display string iff the codepoint length of
`title + " ~ " + artist` (separator counted only when both non-empty) is
at most 50; beyond 50 it sets `needs_scrolling = true` and retains the
raw unescaped string, with the codepoint length stored in
`to_display_utf8_len` in both cases. -/
theorem static_scroll_boundary (s : OGState) (title artist : List Char) :
    ((update_to_display s title artist).needs_scrolling = false ↔
      (combined_src title artist).length ≤ max_width) ∧
    ((update_to_display s title artist).to_display_utf8_len =
      (combined_src title artist).length) ∧
    ((combined_src title artist).length ≤ max_width →
      (update_to_display s title artist).to_display = encode (combined_src title artist)) ∧
    (max_width < (combined_src title artist).length →
      (update_to_display s title artist).needs_scrolling = true ∧
      (update_to_display s title artist).to_display = combined_src title artist) := by
  rw [combined_src_length]
  unfold update_to_display
  by_cases hle :
      title.length + (if title ≠ [] ∧ artist ≠ [] then 3 else 0) + artist.length ≤ max_width
  · rw [if_pos hle]
    refine ⟨by simp [hle], rfl, fun _ => ?_, fun hgt => absurd hgt (not_lt.mpr hle)⟩
    show encode title ++ (if title ≠ [] ∧ artist ≠ [] then seperator else []) ++ encode artist
        = encode (combined_src title artist)
    unfold combined_src
    rw [encode_append, encode_append]
    by_cases h : title ≠ [] ∧ artist ≠ []
    · rw [if_pos h, encode_seperator]
    · rw [if_neg h]
      simp [encode]
  · rw [if_neg hle]
    refine ⟨by simpa using hle, rfl, fun hle2 => absurd hle2 hle, fun _ => ⟨rfl, rfl⟩⟩

/-- Witness for C5 at the boundary: combined length exactly 50 renders
statically, 51 scrolls. -/
theorem static_scroll_boundary_witness :
    (update_to_display og0 (List.replicate 50 'a') []).needs_scrolling = false ∧
    (update_to_display og0 (List.replicate 51 'a') []).needs_scrolling = true :=
  ⟨(static_scroll_boundary og0 (List.replicate 50 'a') []).1.mpr (by decide),
   ((static_scroll_boundary og0 (List.replicate 51 'a') []).2.2.2 (by decide)).1⟩

/-! ### Window cycle (claim C4) -/

/-- `display` leaves the engine state unchanged whenever
`display_offset ≤ to_display_utf8_len + 2` (no branch resets the
offset there). -/
theorem display_keeps_state (td : List Char) (len off : Nat) (ns pl : Bool) (ls : LastSource)
    (h : off ≤ len + 2) :
    (display ⟨td, len, ns, off, pl, ls⟩).1 = ⟨td, len, ns, off, pl, ls⟩ := by
  unfold display
  repeat' split
  all_goals first | rfl | exact absurd h (by simp_all; omega)

/-- Past the separator (`display_offset > to_display_utf8_len + 2`),
`display` resets the offset to 0 and renders the escaped first
`max_width` codepoints. -/
theorem display_reset (td : List Char) (len off : Nat) (pl : Bool) (ls : LastSource)
    (h : len + 2 < off) :
    display ⟨td, len, true, off, pl, ls⟩ =
      (⟨td, len, true, 0, pl, ls⟩, display_line pl (encode (td.take max_width))) := by
  unfold display
  rw [if_neg (by simp), if_neg (by simp; omega), if_pos (by simp; omega)]

theorem scoll_eq (td : List Char) (len off : Nat) (pl : Bool) (ls : LastSource) :
    scoll ⟨td, len, true, off, pl, ls⟩ =
      ((display ⟨td, len, true, off + 1, pl, ls⟩).1,
       some (display ⟨td, len, true, off + 1, pl, ls⟩).2) := by
  unfold scoll
  rw [if_neg (by simp)]

theorem scoll_iter_offset (td : List Char) (len : Nat) (pl : Bool) (ls : LastSource)
    (off k : Nat) (h : off + k ≤ len + 2) :
    scoll_iter k ⟨td, len, true, off, pl, ls⟩ = ⟨td, len, true, off + k, pl, ls⟩ := by
  induction k with
  | zero => rfl
  | succ n ih =>
    rw [scoll_iter, ih (by omega), scoll_eq]
    exact display_keeps_state td len (off + n + 1) true pl ls (by omega)

/-- Claim C4: for every scrolling raw string of codepoint length
`L > 50` with scroll offset 0, the `L + 3`-rd tick renders a window
identical to the window at offset 0 (the escaped first 50 codepoints),
and the engine state after those `L + 3` ticks is again the starting
state, so the emitted window sequence is periodic with period `L + 3`. -/
theorem window_cycle (s : OGState)
    (hscroll : s.needs_scrolling = true)
    (hoff : s.display_offset = 0)
    (hlen : s.to_display_utf8_len = s.to_display.length)
    (hL : max_width < s.to_display.length) :
    scoll_iter (s.to_display.length + 3) s = s ∧
    (scoll (scoll_iter (s.to_display.length + 2) s)).2 = some ((display s).2) ∧
    (display s).2 = display_line s.is_playing (encode (s.to_display.take max_width)) := by
  obtain ⟨td, len, ns, off, pl, ls⟩ := s
  simp only at hscroll hoff hlen hL ⊢
  subst hscroll
  subst hoff
  subst hlen
  have hiter : scoll_iter (td.length + 2) ⟨td, td.length, true, 0, pl, ls⟩ =
      ⟨td, td.length, true, td.length + 2, pl, ls⟩ := by
    have h2 := scoll_iter_offset td td.length pl ls 0 (td.length + 2) (by omega)
    rw [Nat.zero_add] at h2
    exact h2
  have hstep : scoll ⟨td, td.length, true, td.length + 2, pl, ls⟩ =
      (⟨td, td.length, true, 0, pl, ls⟩,
       some (display_line pl (encode (td.take max_width)))) := by
    rw [scoll_eq, display_reset td td.length (td.length + 2 + 1) pl ls (by omega)]
  have hdisp0 : (display ⟨td, td.length, true, 0, pl, ls⟩).2 =
      display_line pl (encode (td.take max_width)) := by
    unfold display
    rw [if_neg (by simp), if_pos (by simp; omega), if_pos (by simp; omega)]
    simp [utf8_substr]
  refine ⟨?_, ?_, hdisp0⟩
  · show scoll_iter (td.length + 2 + 1) ⟨td, td.length, true, 0, pl, ls⟩ = _
    rw [scoll_iter, hiter, hstep]
  · rw [hiter, hstep, hdisp0]

/-- Witness for C4 over a 51-codepoint scrolling string: 54 ticks
return to the initial state, and the 54th window equals the offset-0
window. -/
theorem window_cycle_witness :
    scoll_iter (sW.to_display.length + 3) sW = sW ∧
    (scoll (scoll_iter (sW.to_display.length + 2) sW)).2 = some ((display sW).2) :=
  ⟨(window_cycle sW rfl rfl (by decide) (by decide)).1,
   (window_cycle sW rfl rfl (by decide) (by decide)).2.1⟩

/-! ### No-op update (claim C6) -/

@[simp] theorem display_fst_last_src (s : OGState) : (display s).1.last_src = s.last_src := by
  unfold display
  repeat' split
  all_goals rfl

@[simp] theorem display_fst_is_playing (s : OGState) :
    (display s).1.is_playing = s.is_playing := by
  unfold display
  repeat' split
  all_goals rfl

@[simp] theorem update_to_display_last_src (s : OGState) (t a : List Char) :
    (update_to_display s t a).last_src = s.last_src := by
  unfold update_to_display
  repeat' split
  all_goals rfl

@[simp] theorem update_to_display_is_playing (s : OGState) (t a : List Char) :
    (update_to_display s t a).is_playing = s.is_playing := by
  unfold update_to_display
  repeat' split
  all_goals rfl

/-- After any `on_update_seleceted`, the last-rendered title/artist and
playing flag equal the update's values. -/
theorem upd_sets_last (s : OGState) (cache : Option (List Char)) (p : PState) (f : FSFail) :
    (on_update_seleceted s cache p f).1.last_src.title = p.title ∧
    (on_update_seleceted s cache p f).1.last_src.artist = p.artist ∧
    (on_update_seleceted s cache p f).1.is_playing = p.playing := by
  simp only [on_update_seleceted]
  split_ifs <;> simp_all

/-- An update whose title, artist and playing flag match the last render
emits nothing. -/
theorem upd_noop (s : OGState) (cache : Option (List Char)) (p : PState) (f : FSFail)
    (ht : s.last_src.title = p.title) (ha : s.last_src.artist = p.artist)
    (hp : s.is_playing = p.playing) :
    (on_update_seleceted s cache p f).2.2 = [] := by
  simp only [on_update_seleceted]
  split_ifs <;> simp_all

/-- Claim C6: an `on_update_seleceted` whose title, artist and playing
flag all equal the last-rendered values emits no status line; hence two
consecutive updates with identical title, artist and playing state emit
nothing on the second (whatever the first did). -/
theorem no_op_update (s : OGState) (cache : Option (List Char)) (p : PState) (f f2 : FSFail) :
    ((s.last_src.title = p.title ∧ s.last_src.artist = p.artist ∧ s.is_playing = p.playing) →
      (on_update_seleceted s cache p f).2.2 = []) ∧
    (on_update_seleceted (on_update_seleceted s cache p f).1
        (on_update_seleceted s cache p f).2.1 p f2).2.2 = [] := by
  constructor
  · rintro ⟨ht, ha, hp⟩
    exact upd_noop s cache p f ht ha hp
  · obtain ⟨h1, h2, h3⟩ := upd_sets_last s cache p f
    exact upd_noop _ _ _ _ h1 h2 h3

/-- Witness for C6: an update repeating the already-rendered empty
source emits nothing. -/
theorem no_op_update_witness :
    (on_update_seleceted og0 none ⟨[], [], [], false⟩ fsOk).2.2 = [] :=
  (no_op_update og0 none ⟨[], [], [], false⟩ fsOk fsOk).1 ⟨rfl, rfl, rfl⟩

/-! ### Cover-art cache routine (claim C8) -/

/-- Claim C8: on an artUrl change, `update_cover_art` first removes a
pre-existing artifact if present (when that removal throws, nothing more
happens and the error is caught); when all operations succeed the
resulting artifact is a symlink to the url minus its 7-character
`file://` prefix iff the url has that prefix, and absent otherwise;
absence of a pre-existing artifact is not an error (the removal is
skipped, so a failing remove is irrelevant); and every filesystem error
is caught and non-fatal, leaving the engine state and the emitted status
lines of `on_update_seleceted` independent of which filesystem
operations fail. -/
theorem cover_art_routine (cache : Option (List Char)) (url : List Char) (f : FSFail)
    (s : OGState) (c : Option (List Char)) (p : PState) (f2 f3 : FSFail) :
    (f.remove_fails = false → f.symlink_fails = false →
      update_cover_art cache url f =
        (if ("file://".toList).isPrefixOf url
         then (some (url.drop 7), false) else (none, false))) ∧
    (cache.isSome = true → f.remove_fails = true →
      update_cover_art cache url f = (cache, true)) ∧
    (cache = none →
      update_cover_art cache url f = update_cover_art cache url ⟨true, f.symlink_fails⟩) ∧
    ((on_update_seleceted s c p f2).1 = (on_update_seleceted s c p f3).1 ∧
     (on_update_seleceted s c p f2).2.2 = (on_update_seleceted s c p f3).2.2) := by
  refine ⟨?_, ?_, ?_, ?_⟩
  · intro h1 h2
    unfold update_cover_art
    rw [h1, h2, Bool.and_false]
    rw [if_neg (show ¬(false = true) by simp)]
    split <;> rfl
  · intro h1 h2
    simp [update_cover_art, h1, h2]
  · intro h1
    subst h1
    simp [update_cover_art]
  · constructor <;> (simp only [on_update_seleceted]; split_ifs <;> rfl)

/-- Witness for C8: with a pre-existing artifact and a local-file url,
the successful routine replaces the artifact by a symlink to the path
after `file://`. -/
theorem cover_art_routine_witness :
    update_cover_art (some urlW) urlW fsOk =
      (if ("file://".toList).isPrefixOf urlW
       then (some (urlW.drop 7), false) else (none, false)) :=
  (cover_art_routine (some urlW) urlW fsOk og0 none ⟨[], [], [], false⟩ fsOk fsOk).1 rfl rfl

/-! ### Metadata parsing totality (claim C10) -/

/-- Claim C10: `parse_metadata` is total on every metadata dictionary:
each absent key yields the field's default (0 for length, `""` for the
string fields); in particular an absent `xesam:artist` makes
`metadata_get_str_array_value` return the empty string (GLib's
precondition guard on the NULL variant returns NULL with the count left
at 0) rather than reaching an error branch; and the trackid falls back
from the object-path lookup to the string lookup to `""`. -/
theorem parse_metadata_total (d : MetaDict) :
    (d.strarray_vals "xesam:artist" = none → (parse_metadata d).artist = "") ∧
    (d.u64_vals "mpris:length" = none → (parse_metadata d).length = 0) ∧
    (d.str_vals "xesam:title" = none → (parse_metadata d).title = "") ∧
    (d.str_vals "xesam:album" = none → (parse_metadata d).album = "") ∧
    (d.str_vals "mpris:artUrl" = none → (parse_metadata d).art_url = "") ∧
    (d.str_vals "xesam:url" = none → (parse_metadata d).url = "") ∧
    (d.objpath_vals "mpris:trackid" = none → d.str_vals "mpris:trackid" = none →
      (parse_metadata d).trackid = "") := by
  refine ⟨?_, ?_, ?_, ?_, ?_, ?_, ?_⟩
  · intro h; simp [parse_metadata, metadata_get_str_array_value, h]
  · intro h; simp [parse_metadata, metadata_get_u64_value, h]
  · intro h; simp [parse_metadata, metadata_get_str_value, h]
  · intro h; simp [parse_metadata, metadata_get_str_value, h]
  · intro h; simp [parse_metadata, metadata_get_str_value, h]
  · intro h; simp [parse_metadata, metadata_get_str_value, h]
  · intro h1 h2; simp [parse_metadata, metadata_get_track_id, h1, h2]

/-- Witness for C10 on the all-absent dictionary. -/
theorem parse_metadata_total_witness :
    (parse_metadata emptyDict).artist = "" ∧ (parse_metadata emptyDict).length = 0 :=
  ⟨(parse_metadata_total emptyDict).1 rfl, (parse_metadata_total emptyDict).2.1 rfl⟩

end Mpris
